import Mathlib

set_option maxHeartbeats 1000000

/-!
Verification of the caa-project encrypted file-storage server.

The definitions below are a shallow embedding of the server code in
src/server/src (routes/files.rs, routes/mod.rs, routes/auth.rs) and of the
client AEAD helper in src/client/src/crypto.rs.  The relational database is
modelled as lists of rows, one list per table, following the diesel schema
in src/server/src/db/schema.rs.  Rust functions that can panic (an unwrap on
a failed query, an out-of-bounds slice) or that can fail to terminate are
modelled in Option, where none stands for the panic or for divergence; the
recursion of has_access is made explicit with a fuel parameter, and running
out of fuel at every fuel value is how the embedding expresses that the Rust
recursion never returns.
-/

namespace CAA

/-- A row of the keys table (schema.rs lines 20-26): an edge recording that
the wrapped symmetric key for file target is stored in keyring keyring_id. -/
structure Key where
  target : String
  key : List Nat
  keyring_id : Int
deriving DecidableEq

/-- A row of the files table (schema.rs lines 3-12).  data is the nullable
ciphertext column, keyring_id the nullable folder-keyring column. -/
structure File where
  id : String
  name : String
  mtime : Option Int
  sz : Option Int
  data : Option (List Nat)
  keyring_id : Option Int
deriving DecidableEq

/-- A row of the sessions table (schema.rs lines 28-34). -/
structure Session where
  token : String
  user : String
  expiration_date : Int
deriving DecidableEq

/-- A row of the users table (schema.rs lines 36-44). -/
structure User where
  username : String
  password : List Nat
  pub_key : List Nat
  priv_key : List Nat
  keyring : Int
deriving DecidableEq

/-- The whole database: one list of rows per table.  The keyrings table has a
single integer id column, so it is a list of ids. -/
structure DB where
  users : List User
  keyrings : List Int
  files : List File
  keys : List Key
  sessions : List Session
deriving DecidableEq

/-- The HTTP status codes the embedded handlers return. -/
inductive Status where
  | OK
  | CREATED
  | FORBIDDEN
  | UNAUTHORIZED
  | CONFLICT
  | NOT_FOUND
deriving DecidableEq

/-- keys.filter(keyring_id = kr): the edges stored in one keyring
(files.rs lines 653-656). -/
def keysOf (db : DB) (kr : Int) : List Key :=
  db.keys.filter (fun k => k.keyring_id == kr)

/-- files.find(fid): primary-key lookup in the files table. -/
def findFile (db : DB) (fid : String) : Option File :=
  db.files.find? (fun f => f.id == fid)

/-- files.find(fid).inner_join(keyrings): succeeds exactly when fid names a
file row whose keyring_id column is set and refers to an existing keyring
row, i.e. when fid is a folder; returns the folder keyring id
(files.rs lines 663-667 and the Folder selects at lines 75-85, 258-269,
585-595). -/
def folderKeyring (db : DB) (fid : String) : Option Int :=
  match findFile db fid with
  | some f =>
    match f.keyring_id with
    | some k => if db.keyrings.contains k then some k else none
    | none => none
  | none => none

/-- users.find(uname).inner_join(keyrings): the caller row together with the
check that its root keyring row exists (the UserWithKeyring select repeated
at the top of every files.rs handler). -/
def getUserWithKeyring (db : DB) (uname : String) : Option User :=
  match db.users.find? (fun u => u.username == uname) with
  | some u => if db.keyrings.contains u.keyring then some u else none
  | none => none

/-- The edge loop inside has_access (files.rs lines 658-674).  rec is the
recursive call on a child keyring; a none from rec is propagated because in
Rust the whole call diverges as soon as one recursive call diverges. -/
def has_access_go (rec : Int → Option Bool) (db : DB) (fid : String) :
    List Key → Option Bool
  | [] => some false
  | k :: rest =>
    if k.target == fid then some true
    else
      match folderKeyring db k.target with
      | some kr =>
        match rec kr with
        | some true => some true
        | some false => has_access_go rec db fid rest
        | none => none
      | none => has_access_go rec db fid rest

/-- has_access (files.rs lines 648-677) with an explicit fuel parameter.
The Rust function recurses with no depth bound and no visited set; a result
of none means the recursion has not returned within the given fuel, and a
none at every fuel value means the Rust call never returns. -/
def has_access (db : DB) (fid : String) : Nat → Int → Option Bool
  | 0, _ => none
  | fuel + 1, kr => has_access_go (has_access db fid fuel) db fid (keysOf db kr)

/-- A directed path of edges from keyring kr, through zero or more folder
keyrings, to an edge whose target is fid.  This is the specification-side
reading of the authorization property. -/
inductive Reachable (db : DB) : Int → String → Prop where
  | direct : ∀ (k : Key) (kr : Int) (fid : String),
      k ∈ db.keys → k.keyring_id = kr → k.target = fid → Reachable db kr fid
  | step : ∀ (k : Key) (kr kr2 : Int) (fid : String),
      k ∈ db.keys → k.keyring_id = kr → folderKeyring db k.target = some kr2 →
      Reachable db kr2 fid → Reachable db kr fid

/-- Rust cast of a usize length to i32 (the file.len() as i32 writes in
files.rs lines 113, 136, 621). -/
def i32ofNat (n : Nat) : Int :=
  Int.bmod (Int.ofNat n) (2 ^ 32)

/-- The parent-keyring resolution shared by upload, create_folder and
unshare (files.rs lines 74-90, 258-274, 584-600): the root keyring of the
caller when parent_uid is absent, else the folder keyring of the named
parent; none models the unwrap panic when the parent is not a folder. -/
def resolveParentKeyring (db : DB) (user : User) (parent_uid : Option String) :
    Option Int :=
  match parent_uid with
  | some p => folderKeyring db p
  | none => some user.keyring

/-- The existing-file query of upload_file (files.rs lines 92-105):
keys inner_join files filtered on files.name alone, with no restriction to
any keyring; first matching row. -/
def findFileByName (db : DB) (name : String) : Option File :=
  (db.keys.filterMap (fun k =>
    match findFile db k.target with
    | some f => if f.name == name then some f else none
    | none => none)).head?

/-- The in-place update of upload_file (files.rs lines 109-124): set sz,
data and mtime of the row with the given id. -/
def updateFileData (files : List File) (fid : String) (sz : Int)
    (data : List Nat) (now : Int) : List File :=
  files.map (fun f =>
    if f.id == fid then { f with sz := some sz, data := some data, mtime := some now }
    else f)

/-- Request body of POST /file/upload (files.rs lines 20-31). -/
structure UploadFileRequest where
  parent_uid : Option String
  filename : String
  file : List Nat
  encrypted_key : List Nat
deriving DecidableEq

/-- The fresh file row the create branch of upload_file inserts (files.rs
lines 129-139): a fresh uuid, the encrypted name, the clock, the content
length and bytes, and no folder keyring. -/
def uploadNewFile (freshId : String) (req : UploadFileRequest) (now : Int) :
    File :=
  { id := freshId, name := req.filename, mtime := some now,
    sz := some (i32ofNat req.file.length), data := some req.file,
    keyring_id := none }

/-- upload_file (files.rs lines 41-169).  fuel feeds the has_access calls,
now is the clock value and freshId the generated uuid; none models a panic
or a diverging has_access call. -/
def upload_file (fuel : Nat) (now : Int) (freshId : String) (db : DB)
    (uname : String) (req : UploadFileRequest) : Option (Status × DB) :=
  match getUserWithKeyring db uname with
  | none => none
  | some user =>
    let parentOk : Option Bool :=
      match req.parent_uid with
      | some p => has_access db p fuel user.keyring
      | none => some true
    match parentOk with
    | none => none
    | some false => some (.FORBIDDEN, db)
    | some true =>
      match resolveParentKeyring db user req.parent_uid with
      | none => none
      | some pk =>
        match findFileByName db req.filename with
        | some f =>
          some (.OK, { db with
            files := updateFileData db.files f.id (i32ofNat req.file.length) req.file now })
        | none =>
          some (.CREATED, { db with
            files := db.files ++ [uploadNewFile freshId req now],
            keys := db.keys ++ [⟨freshId, req.encrypted_key, pk⟩] })

/-- Request body of POST /folder/create (files.rs lines 171-180). -/
structure CreateFolderRequest where
  parent_uid : Option String
  filename : String
  encrypted_key : List Nat
deriving DecidableEq

/-- create_folder (files.rs lines 190-311): insert a fresh keyring, then the
folder file row, then resolve the parent keyring against the already updated
database, then insert the edge.  The three inserts are three separate
statements in the source, not one transaction. -/
def create_folder (fuel : Nat) (now : Int) (freshKeyring : Int)
    (freshId : String) (db : DB) (uname : String) (req : CreateFolderRequest) :
    Option (Status × DB) :=
  match getUserWithKeyring db uname with
  | none => none
  | some user =>
    let parentOk : Option Bool :=
      match req.parent_uid with
      | some p => has_access db p fuel user.keyring
      | none => some true
    match parentOk with
    | none => none
    | some false => some (.FORBIDDEN, db)
    | some true =>
      let db1 : DB := { db with keyrings := db.keyrings ++ [freshKeyring] }
      let folder : File :=
        { id := freshId, name := req.filename, mtime := some now,
          sz := none, data := none, keyring_id := some freshKeyring }
      let db2 : DB := { db1 with files := db1.files ++ [folder] }
      match resolveParentKeyring db2 user req.parent_uid with
      | none => none
      | some pk =>
        some (.OK, { db2 with keys := db2.keys ++ [⟨freshId, req.encrypted_key, pk⟩] })

/-- download_file (files.rs lines 326-371): authorize by has_access, then
return the file row; error FORBIDDEN when the walk refuses. -/
def download_file (fuel : Nat) (db : DB) (uname : String) (file_uid : String) :
    Option (Except Status File) :=
  match getUserWithKeyring db uname with
  | none => none
  | some user =>
    match has_access db file_uid fuel user.keyring with
    | none => none
    | some false => some (.error .FORBIDDEN)
    | some true =>
      match findFile db file_uid with
      | none => none
      | some f => some (.ok f)

/-- delete_file (files.rs lines 379-433): authorize, then in one transaction
delete every edge targeting the file and the file row itself. -/
def delete_file (fuel : Nat) (db : DB) (uname : String) (file_uid : String) :
    Option (Status × DB) :=
  match getUserWithKeyring db uname with
  | none => none
  | some user =>
    match has_access db file_uid fuel user.keyring with
    | none => none
    | some false => some (.FORBIDDEN, db)
    | some true =>
      some (.OK, { db with
        keys := db.keys.filter (fun k => !(k.target == file_uid)),
        files := db.files.filter (fun f => !(f.id == file_uid)) })

/-- Request body of POST /file/share (files.rs lines 435-443). -/
structure ShareFileRequest where
  file_uid : String
  encrypted_key : List Nat
  target_user : String
deriving DecidableEq

/-- share_file (files.rs lines 453-511): authorize, then in one transaction
insert one edge into the root keyring of the target user. -/
def share_file (fuel : Nat) (db : DB) (uname : String)
    (req : ShareFileRequest) : Option (Status × DB) :=
  match getUserWithKeyring db uname with
  | none => none
  | some user =>
    match has_access db req.file_uid fuel user.keyring with
    | none => none
    | some false => some (.FORBIDDEN, db)
    | some true =>
      match db.users.find? (fun u => u.username == req.target_user) with
      | none => none
      | some tu =>
        some (.OK, { db with
          keys := db.keys ++ [⟨req.file_uid, req.encrypted_key, tu.keyring⟩] })

/-- Request body of POST /file/unshare (files.rs lines 513-528). -/
structure RevokeShareFileRequest where
  file_uid : String
  parent_uid : Option String
  encrypted_key : List Nat
  filename : String
  file : Option (List Nat)
deriving DecidableEq

/-- The size unshare_file stores (files.rs lines 620-624): the length of the
supplied content, or 0 when the request carries none. -/
def unshareSize (file : Option (List Nat)) : Int :=
  match file with
  | some d => i32ofNat d.length
  | none => 0

/-- The row rewrite unshare_file applies to the target file (files.rs lines
626-642): overwrite name, sz, data and mtime with the caller-supplied
values; data receives the caller Option unchanged (line 632), and keyring_id
is untouched. -/
def unshareUpdateRow (req : RevokeShareFileRequest) (now : Int) (f : File) :
    File :=
  if f.id == req.file_uid then
    { f with name := req.filename, sz := some (unshareSize req.file),
             data := req.file, mtime := some now }
  else f

/-- unshare_file (files.rs lines 533-645): authorize on the file and on the
chosen parent, delete every edge targeting the file, insert one new edge
into the resolved parent keyring, then overwrite the file row. -/
def unshare_file (fuel : Nat) (now : Int) (db : DB) (uname : String)
    (req : RevokeShareFileRequest) : Option (Status × DB) :=
  match getUserWithKeyring db uname with
  | none => none
  | some user =>
    match has_access db req.file_uid fuel user.keyring with
    | none => none
    | some false => some (.FORBIDDEN, db)
    | some true =>
      let parentOk : Option Bool :=
        match req.parent_uid with
        | some p => has_access db p fuel user.keyring
        | none => some true
      match parentOk with
      | none => none
      | some false => some (.FORBIDDEN, db)
      | some true =>
        let keys1 := db.keys.filter (fun k => !(k.target == req.file_uid))
        match resolveParentKeyring db user req.parent_uid with
        | none => none
        | some pk =>
          some (.OK, { db with
            keys := keys1 ++ [⟨req.file_uid, req.encrypted_key, pk⟩],
            files := db.files.map (unshareUpdateRow req now) })

/-- The file-row invariant of the data model: exactly one of the nullable
columns data and keyring_id is present. -/
def fileInvariant (f : File) : Bool :=
  xor f.data.isSome f.keyring_id.isSome

/-- Rust cast i64 as u64 (routes/mod.rs line 78): reinterpret the signed
64-bit value as unsigned. -/
def u64OfInt (e : Int) : Nat :=
  (e % (2 ^ 64 : Int)).toNat

/-- Rust cast u128 as u64 (routes/mod.rs lines 73-76): truncate the
millisecond clock to 64 bits. -/
def u64OfNat (n : Nat) : Nat :=
  n % 2 ^ 64

/-- Authorization header parse (routes/mod.rs line 57): token.get(7..),
which is none when the header is shorter than the Bearer prefix. -/
def bearerToken (h : String) : Option String :=
  if 7 ≤ h.length then some (String.mk (h.data.drop 7)) else none

/-- auth_middleware (routes/mod.rs lines 49-101).  The first component is
ok s when the handler runs carrying session s, and error () when the
middleware answers 401 without running the handler; the second component is
the database after the middleware (the expired row, if any, deleted). -/
def auth_middleware (db : DB) (header : Option String) (now : Nat) :
    Except Unit Session × DB :=
  match header with
  | none => (.error (), db)
  | some h =>
    match bearerToken h with
    | none => (.error (), db)
    | some tok =>
      match db.sessions.find? (fun s => s.token == tok) with
      | none => (.error (), db)
      | some s =>
        if u64OfInt s.expiration_date ≤ u64OfNat now then
          (.error (),
           { db with sessions := db.sessions.filter (fun x => !(x.token == s.token)) })
        else
          (.ok s, db)

/-- The server_login_states map insert (auth.rs lines 218-222): keyed by
username, a repeated start overwrites the previous entry. -/
def insertLoginState (states : List (String × List Nat)) (uname : String)
    (v : List Nat) : List (String × List Nat) :=
  states.filter (fun p => !(p.1 == uname)) ++ [(uname, v)]

/-- login_start (auth.rs lines 168-226).  opq stands for the opaque-ke
ServerLogin start call, taking the optional stored password envelope (the
library substitutes its own dummy record when the argument is none) and the
credential request; deser stands for ServerRegistration deserialize.  The
handler looks the user up, passes some envelope when the user exists and
none otherwise, always runs the protocol, stores the intermediate state and
returns the credential response. -/
def login_start (opq : Option (List Nat) → List Nat → List Nat)
    (deser : List Nat → List Nat) (db : DB)
    (states : List (String × List Nat)) (uname : String) (credReq : List Nat) :
    Except (Status × String) (List Nat) × List (String × List Nat) :=
  let user := db.users.find? (fun u => u.username == uname)
  let envelope : Option (List Nat) := user.map (fun u => deser u.password)
  let res := opq envelope credReq
  (.ok res, insertLoginState states uname res)

/-- chacha_decrypt (crypto.rs lines 33-40).  aeadOpen stands for the
ChaCha20-Poly1305 open call on key, nonce and ciphertext, returning the
plaintext or a KeyMismatch-style failure.  The outer Option models the Rust
panics: GenericArray from_slice requires a 32-byte key, and the slices
data[..12] and data[12..] require at least 12 bytes of input. -/
def chacha_decrypt
    (aeadOpen : List Nat → List Nat → List Nat → Except Unit (List Nat))
    (data : List Nat) (key : List Nat) : Option (Except Unit (List Nat)) :=
  if key.length = 32 then
    if data.length < 12 then none
    else some (aeadOpen key (data.take 12) (data.drop 12))
  else none

/-- A concrete AEAD open used to instantiate the abstract one in closed
statements. -/
def rejectAead (_key _nonce _ct : List Nat) : Except Unit (List Nat) :=
  .error ()

/-- One database write statement, as issued by the handlers in files.rs. -/
inductive WriteOp where
  | insertKeyring (k : Int)
  | insertFile (f : File)
  | insertKey (k : Key)
  | updateRow (fid : String) (name : Option String) (sz : Int)
      (data : Option (List Nat)) (mtime : Int)
  | deleteKeysTarget (t : String)
  | deleteFile (fid : String)

/-- Effect of one write statement on the database. -/
def applyWriteOp (db : DB) : WriteOp → DB
  | .insertKeyring k => { db with keyrings := db.keyrings ++ [k] }
  | .insertFile f => { db with files := db.files ++ [f] }
  | .insertKey k => { db with keys := db.keys ++ [k] }
  | .updateRow fid name sz data mtime =>
    { db with files := db.files.map (fun f =>
        if f.id == fid then
          { f with name := name.getD f.name, sz := some sz, data := data,
                   mtime := some mtime }
        else f) }
  | .deleteKeysTarget t => { db with keys := db.keys.filter (fun k => !(k.target == t)) }
  | .deleteFile fid => { db with files := db.files.filter (fun f => !(f.id == fid)) }

/-- A database statement as sent by a handler: either a single autocommitted
write or an explicit transaction holding several writes. -/
inductive Stmt where
  | single (op : WriteOp)
  | txn (ops : List WriteOp)

/-- Effect of one statement; a transaction applies all of its writes
atomically. -/
def applyStmt (db : DB) : Stmt → DB
  | .single op => applyWriteOp db op
  | .txn ops => ops.foldl applyWriteOp db

/-- The database states observable from outside while a statement list runs:
the state after each statement boundary.  A transaction contributes exactly
one boundary, so its interior is never observable. -/
def observableStates (db : DB) : List Stmt → List DB
  | [] => []
  | s :: rest =>
    let db1 := applyStmt db s
    db1 :: observableStates db1 rest

/-- The write statements create_folder issues after its access check
(files.rs lines 222-291): three separate single-statement inserts, none of
them inside a transaction. -/
def create_folder_stmts (freshKeyring : Int) (folder : File) (edge : Key) :
    List Stmt :=
  [.single (.insertKeyring freshKeyring),
   .single (.insertFile folder),
   .single (.insertKey edge)]

/-- The write statements of the create branch of upload_file (files.rs
lines 141-165): two separate inserts, no transaction. -/
def upload_create_stmts (nf : File) (edge : Key) : List Stmt :=
  [.single (.insertFile nf), .single (.insertKey edge)]

/-- The write statements of delete_file (files.rs lines 417-430): the two
deletes run inside one transaction. -/
def delete_stmts (fid : String) : List Stmt :=
  [.txn [.deleteKeysTarget fid, .deleteFile fid]]

/-- The write statements of share_file (files.rs lines 487-508): the single
insert runs inside one transaction. -/
def share_stmts (edge : Key) : List Stmt :=
  [.txn [.insertKey edge]]

/-- The write statements of unshare_file (files.rs lines 574-642): three
separate statements, no transaction. -/
def unshare_stmts (fid : String) (edge : Key) (name : String) (sz : Int)
    (data : Option (List Nat)) (mtime : Int) : List Stmt :=
  [.single (.deleteKeysTarget fid),
   .single (.insertKey edge),
   .single (.updateRow fid (some name) sz data mtime)]

/-! Concrete databases and requests used in the closed statements below. -/

/-- One keyring 1 holding a single edge to file id f. -/
def c1db : DB :=
  { users := [], keyrings := [1], files := [],
    keys := [⟨"f", [], 1⟩], sessions := [] }

/-- A cyclic database: folder A owns keyring 2, and keyring 2 holds an edge
back to folder A.  Nothing in the schema prevents this state. -/
def c3db : DB :=
  { users := [], keyrings := [2],
    files := [⟨"A", "an", none, none, none, some 2⟩],
    keys := [⟨"A", [], 2⟩], sessions := [] }

/-- Two users u (root keyring 1) and v (root keyring 2) both holding an edge
to folder p (keyring 3), which contains file f: a shared parent folder. -/
def c2cexDB : DB :=
  { users := [⟨"u", [], [], [], 1⟩, ⟨"v", [], [], [], 2⟩],
    keyrings := [1, 2, 3],
    files := [⟨"p", "pn", none, none, none, some 3⟩,
              ⟨"f", "fn", some 0, some 1, some [7], none⟩],
    keys := [⟨"p", [], 1⟩, ⟨"p", [], 2⟩, ⟨"f", [], 3⟩],
    sessions := [] }

/-- The unshare request of u against the shared folder database: keep file f
inside folder p. -/
def c2cexReq : RevokeShareFileRequest := ⟨"f", some "p", [9], "fn2", some [8]⟩

/-- The database produced by that unshare: every old edge to f is gone, the
one new edge to f sits in keyring 3, still reachable from the root of v. -/
def c2cexDB2 : DB :=
  { users := [⟨"u", [], [], [], 1⟩, ⟨"v", [], [], [], 2⟩],
    keyrings := [1, 2, 3],
    files := [⟨"p", "pn", none, none, none, some 3⟩,
              ⟨"f", "fn2", some 0, some 1, some [8], none⟩],
    keys := [⟨"p", [], 1⟩, ⟨"p", [], 2⟩, ⟨"f", [9], 3⟩],
    sessions := [] }

/-- Users u (root 1) and v (root 2); file f shared into both roots. -/
def c2wDB : DB :=
  { users := [⟨"u", [], [], [], 1⟩, ⟨"v", [], [], [], 2⟩],
    keyrings := [1, 2],
    files := [⟨"f", "fn", some 0, some 1, some [7], none⟩],
    keys := [⟨"f", [1], 1⟩, ⟨"f", [2], 2⟩],
    sessions := [] }

/-- The unshare request of u keeping f at the root. -/
def c2wReq : RevokeShareFileRequest := ⟨"f", none, [9], "fn2", some [8]⟩

/-- The database after that unshare: the only edge to f is in root 1. -/
def c2wDB2 : DB :=
  { users := [⟨"u", [], [], [], 1⟩, ⟨"v", [], [], [], 2⟩],
    keyrings := [1, 2],
    files := [⟨"f", "fn2", some 0, some 1, some [8], none⟩],
    keys := [⟨"f", [9], 1⟩],
    sessions := [] }

/-- User u with empty root keyring 1; a foreign keyring 2 holds the only
edge, pointing at file g whose encrypted name is the string secret. -/
def c4db : DB :=
  { users := [⟨"u", [], [], [], 1⟩],
    keyrings := [1, 2],
    files := [⟨"g", "secret", some 5, some 1, some [1], none⟩],
    keys := [⟨"g", [4], 2⟩],
    sessions := [] }

/-- An upload by u to the root with the same encrypted name. -/
def c4req : UploadFileRequest := ⟨none, "secret", [5], [6]⟩

/-- The database that upload produces: the foreign file g was overwritten in
place and no row was inserted anywhere. -/
def c4dbU : DB :=
  { users := [⟨"u", [], [], [], 1⟩],
    keyrings := [1, 2],
    files := [⟨"g", "secret", some 0, some 1, some [5], none⟩],
    keys := [⟨"g", [4], 2⟩],
    sessions := [] }

/-- The matched file row of the c4 upload before the update. -/
def c4file : File := ⟨"g", "secret", some 5, some 1, some [1], none⟩

/-- User u with empty root keyring 1. -/
def c5db : DB :=
  { users := [⟨"u", [], [], [], 1⟩], keyrings := [1],
    files := [], keys := [], sessions := [] }

/-- The folder row create_folder inserts for request dn with fresh keyring 7
and fresh id d at time 0. -/
def c5folder : File := ⟨"d", "dn", some 0, none, none, some 7⟩

/-- The edge create_folder inserts into the root keyring 1. -/
def c5edge : Key := ⟨"d", [3], 1⟩

/-- State after the first insert of create_folder: the keyring row exists
but neither the folder row nor the edge does. -/
def c5mid1 : DB :=
  { users := [⟨"u", [], [], [], 1⟩], keyrings := [1, 7],
    files := [], keys := [], sessions := [] }

/-- State after the second insert: folder row present, edge still missing. -/
def c5mid2 : DB :=
  { users := [⟨"u", [], [], [], 1⟩], keyrings := [1, 7],
    files := [c5folder], keys := [], sessions := [] }

/-- Final state of create_folder. -/
def c5final : DB :=
  { users := [⟨"u", [], [], [], 1⟩], keyrings := [1, 7],
    files := [c5folder], keys := [c5edge], sessions := [] }

/-- User u holding the plain file f (ciphertext present, no folder keyring)
in the root keyring 1. -/
def c6db : DB :=
  { users := [⟨"u", [], [], [], 1⟩], keyrings := [1],
    files := [⟨"f", "fn", some 0, some 1, some [7], none⟩],
    keys := [⟨"f", [2], 1⟩], sessions := [] }

/-- An unshare of the plain file f in which the caller supplies no new file
content: the file field of the request is none. -/
def c6req : RevokeShareFileRequest := ⟨"f", none, [9], "fn2", none⟩

/-- The database after that unshare: row f now has data = none and
keyring_id = none, so neither column is present. -/
def c6db2 : DB :=
  { users := [⟨"u", [], [], [], 1⟩], keyrings := [1],
    files := [⟨"f", "fn2", some 0, some 0, none, none⟩],
    keys := [⟨"f", [9], 1⟩], sessions := [] }

/-- The broken file row produced by the c6 unshare. -/
def c6bad : File := ⟨"f", "fn2", some 0, some 0, none, none⟩

/-- A session store holding one token whose expiration timestamp is the
negative value -1, i.e. far in the past. -/
def c7negDB : DB :=
  { users := [], keyrings := [], files := [], keys := [],
    sessions := [⟨"t", "u", -1⟩] }

/-- A session store holding one token expiring at millisecond 100. -/
def c7wDB : DB :=
  { users := [], keyrings := [], files := [], keys := [],
    sessions := [⟨"t", "u", 100⟩] }

/-- User u whose root keyring 1 is empty; the file id ghost names no row and
no edge anywhere. -/
def c10db : DB :=
  { users := [⟨"u", [], [], [], 1⟩], keyrings := [1],
    files := [], keys := [], sessions := [] }

/-! Helper lemmas about the authorization walk. -/

theorem mem_keysOf {db : DB} {kr : Int} {k : Key} :
    k ∈ keysOf db kr ↔ k ∈ db.keys ∧ k.keyring_id = kr := by
  simp [keysOf, List.mem_filter]

theorem folderKeyring_file {db : DB} {x : String} {kr : Int}
    (h : folderKeyring db x = some kr) :
    ∃ f, f ∈ db.files ∧ f.id = x ∧ f.keyring_id = some kr := by
  unfold folderKeyring at h
  split at h
  · rename_i f hf
    split at h
    · rename_i k2 hk
      split at h
      · rename_i hc
        cases h
        refine ⟨f, List.mem_of_find?_eq_some hf, ?_, hk⟩
        have := List.find?_some hf
        exact beq_iff_eq.mp this
      · cases h
    · cases h
  · cases h

theorem go_true_elim (rec : Int → Option Bool) (db : DB) (fid : String) :
    ∀ ks : List Key, has_access_go rec db fid ks = some true →
      ∃ k, k ∈ ks ∧ (k.target = fid ∨
        ∃ kr, folderKeyring db k.target = some kr ∧ rec kr = some true) := by
  intro ks
  induction ks with
  | nil => intro h; simp [has_access_go] at h
  | cons k rest ih =>
    intro h
    simp only [has_access_go] at h
    split at h
    · rename_i ht
      exact ⟨k, List.mem_cons_self k rest, Or.inl (beq_iff_eq.mp ht)⟩
    · rename_i ht
      split at h
      · rename_i kr hf
        split at h
        · rename_i hr
          exact ⟨k, List.mem_cons_self k rest, Or.inr ⟨kr, hf, hr⟩⟩
        · rename_i hr
          obtain ⟨k2, hk2, hc⟩ := ih h
          exact ⟨k2, List.mem_cons_of_mem _ hk2, hc⟩
        · cases h
      · rename_i hf
        obtain ⟨k2, hk2, hc⟩ := ih h
        exact ⟨k2, List.mem_cons_of_mem _ hk2, hc⟩

theorem go_false_elim (rec : Int → Option Bool) (db : DB) (fid : String) :
    ∀ ks : List Key, has_access_go rec db fid ks = some false →
      ∀ k ∈ ks, k.target ≠ fid ∧
        ∀ kr, folderKeyring db k.target = some kr → rec kr = some false := by
  intro ks
  induction ks with
  | nil => intro _ k hk; cases hk
  | cons k rest ih =>
    intro h k2 hk2
    simp only [has_access_go] at h
    split at h
    · cases h
    · rename_i ht
      have hne : k.target ≠ fid := by
        intro he
        exact ht (beq_iff_eq.mpr he)
      split at h
      · rename_i kr hf
        split at h
        · cases h
        · rename_i hr
          rcases List.mem_cons.mp hk2 with rfl | hmem
          · refine ⟨hne, ?_⟩
            intro kr2 hf2
            rw [hf2] at hf
            cases hf
            exact hr
          · exact ih h k2 hmem
        · cases h
      · rename_i hf
        rcases List.mem_cons.mp hk2 with rfl | hmem
        · refine ⟨hne, ?_⟩
          intro kr2 hf2
          rw [hf] at hf2
          cases hf2
        · exact ih h k2 hmem

theorem has_access_true_reachable (db : DB) (fid : String) :
    ∀ (fuel : Nat) (kr : Int), has_access db fid fuel kr = some true →
      Reachable db kr fid := by
  intro fuel
  induction fuel with
  | zero => intro kr h; simp [has_access] at h
  | succ n ih =>
    intro kr h
    simp only [has_access] at h
    obtain ⟨k, hmem, hcase⟩ := go_true_elim _ db fid _ h
    obtain ⟨hk, hkr⟩ := mem_keysOf.mp hmem
    rcases hcase with ht | ⟨kr2, hf, hr⟩
    · exact Reachable.direct k kr fid hk hkr ht
    · exact Reachable.step k kr kr2 fid hk hkr hf (ih kr2 hr)

theorem reachable_ne_false (db : DB) (fid : String) :
    ∀ (kr : Int), Reachable db kr fid →
      ∀ fuel, has_access db fid fuel kr ≠ some false := by
  intro kr h
  induction h with
  | direct k kr fid hmem hkr htgt =>
    intro fuel hfalse
    cases fuel with
    | zero => simp [has_access] at hfalse
    | succ n =>
      simp only [has_access] at hfalse
      have := go_false_elim _ db fid _ hfalse k (mem_keysOf.mpr ⟨hmem, hkr⟩)
      exact this.1 htgt
  | step k kr kr2 fid hmem hkr hfk _ ih =>
    intro fuel hfalse
    cases fuel with
    | zero => simp [has_access] at hfalse
    | succ n =>
      simp only [has_access] at hfalse
      have h2 := go_false_elim _ db fid _ hfalse k (mem_keysOf.mpr ⟨hmem, hkr⟩)
      exact ih n (h2.2 kr2 hfk)

/-- Claim C1: whenever the recursive server-side authorization function
has_access returns a value, that value is true exactly when a directed path
of edges leads from the given keyring, through zero or more folder keyrings,
to an edge whose target is the requested file id. -/
theorem has_access_iff_reachable (db : DB) (fuel : Nat) (kr : Int)
    (fid : String) (b : Bool) (h : has_access db fid fuel kr = some b) :
    b = true ↔ Reachable db kr fid := by
  constructor
  · intro hb
    subst hb
    exact has_access_true_reachable db fid fuel kr h
  · intro hr
    cases b with
    | true => rfl
    | false => exact absurd h (reachable_ne_false db fid kr hr fuel)

/-- Witness for C1: on the concrete database c1db the walk returns true from
keyring 1 for file f, and the theorem yields the path. -/
theorem has_access_iff_reachable_witness : Reachable c1db 1 "f" :=
  (has_access_iff_reachable c1db 1 1 "f" true (by decide)).mp rfl

/-! Lemmas about unshare_file. -/

theorem unshare_root_shape (fuel : Nat) (now : Int) (db : DB) (uname : String)
    (req : RevokeShareFileRequest) (db2 : DB) (u : User)
    (hpar : req.parent_uid = none)
    (hu : getUserWithKeyring db uname = some u)
    (hrun : unshare_file fuel now db uname req = some (.OK, db2)) :
    db2.keys = db.keys.filter (fun k => !(k.target == req.file_uid)) ++
      [⟨req.file_uid, req.encrypted_key, u.keyring⟩] ∧
    db2.files = db.files.map (unshareUpdateRow req now) := by
  simp only [unshare_file, hu, hpar, resolveParentKeyring] at hrun
  cases hha : has_access db req.file_uid fuel u.keyring with
  | none => rw [hha] at hrun; cases hrun
  | some b =>
    cases b with
    | false => rw [hha] at hrun; simp at hrun
    | true =>
      rw [hha] at hrun
      simp only [Option.some.injEq, Prod.mk.injEq] at hrun
      obtain ⟨-, hdb2⟩ := hrun
      subst hdb2
      exact ⟨rfl, rfl⟩

theorem reachable_only_keyring (db : DB) (fid : String) (rU : Int)
    (honly : ∀ k ∈ db.keys, k.target = fid → k.keyring_id = rU)
    (hroot : ∀ f ∈ db.files, f.keyring_id ≠ some rU) :
    ∀ kr, Reachable db kr fid → kr = rU := by
  intro kr h
  induction h with
  | direct k kr fid hmem hkr htgt =>
    rw [← hkr]
    exact honly k hmem htgt
  | step k kr kr2 fid hmem hkr hfk hre ih =>
    exfalso
    have hkr2 : kr2 = rU := ih honly
    subst hkr2
    obtain ⟨f, hf, -, hfk2⟩ := folderKeyring_file hfk
    exact hroot f hf hfk2

/-- Claim C2 counterexample.  In c2cexDB the users u and v are distinct and
both hold an edge to the shared folder p; u successfully unshares file f
choosing p as parent, yet afterwards the walk from the root keyring of v
still returns true for f, because the one fresh edge went into the keyring
of the folder that v can still reach. -/
theorem unshare_shared_parent_counterexample :
    getUserWithKeyring c2cexDB "v" = some ⟨"v", [], [], [], 2⟩ ∧
    unshare_file 4 0 c2cexDB "u" c2cexReq = some (.OK, c2cexDB2) ∧
    has_access c2cexDB2 "f" 4 2 = some true := by decide

/-- Claim C2 amended: when the caller keeps the file at the root
(parent_uid absent), the root keyrings of the two users differ, and no file
row attaches the root keyring of the caller as a folder keyring, a
successful unshare leaves the file reachable from the root of the caller
and unreachable from every other root; the has_access conjuncts phrase the
same facts for every value the walk can return. -/
theorem unshare_root_revokes (fuel : Nat) (now : Int) (db db2 : DB)
    (uname : String) (req : RevokeShareFileRequest) (u : User) (rV : Int)
    (hpar : req.parent_uid = none)
    (hu : getUserWithKeyring db uname = some u)
    (hrun : unshare_file fuel now db uname req = some (.OK, db2))
    (hroot : ∀ f ∈ db.files, f.keyring_id ≠ some u.keyring)
    (hne : rV ≠ u.keyring) :
    Reachable db2 u.keyring req.file_uid ∧
    ¬ Reachable db2 rV req.file_uid ∧
    (∀ g b, has_access db2 req.file_uid g u.keyring = some b → b = true) ∧
    (∀ g b, has_access db2 req.file_uid g rV = some b → b = false) := by
  obtain ⟨hkeys, hfiles⟩ := unshare_root_shape fuel now db uname req db2 u hpar hu hrun
  have hnew : (⟨req.file_uid, req.encrypted_key, u.keyring⟩ : Key) ∈ db2.keys := by
    rw [hkeys]
    exact List.mem_append_right _ (List.mem_singleton.mpr rfl)
  have hA : Reachable db2 u.keyring req.file_uid :=
    Reachable.direct _ _ _ hnew rfl rfl
  have honly : ∀ k ∈ db2.keys, k.target = req.file_uid → k.keyring_id = u.keyring := by
    intro k hk ht
    rw [hkeys] at hk
    rcases List.mem_append.mp hk with hk | hk
    · have := (List.mem_filter.mp hk).2
      simp [ht] at this
    · rw [List.mem_singleton.mp hk]
  have hroot2 : ∀ f ∈ db2.files, f.keyring_id ≠ some u.keyring := by
    intro f hf
    rw [hfiles] at hf
    obtain ⟨f0, hf0, rfl⟩ := List.mem_map.mp hf
    have hpres : (unshareUpdateRow req now f0).keyring_id = f0.keyring_id := by
      unfold unshareUpdateRow
      split <;> rfl
    rw [hpres]
    exact hroot f0 hf0
  have honlykr := reachable_only_keyring db2 req.file_uid u.keyring honly hroot2
  refine ⟨hA, ?_, ?_, ?_⟩
  · intro hB
    exact hne (honlykr rV hB)
  · intro g b hb
    cases b with
    | true => rfl
    | false => exact absurd hb (reachable_ne_false db2 req.file_uid u.keyring hA g)
  · intro g b hb
    cases b with
    | false => rfl
    | true =>
      exact absurd (honlykr rV (has_access_true_reachable db2 req.file_uid g rV hb)) hne

/-- Witness for the amended C2: the concrete unshare of f by u in c2wDB,
keeping f at the root, leaves f reachable from root 1 of u and unreachable
from root 2 of v. -/
theorem unshare_root_revokes_witness :
    Reachable c2wDB2 1 "f" ∧ ¬ Reachable c2wDB2 2 "f" := by
  have T := unshare_root_revokes 2 0 c2wDB c2wDB2 "u" c2wReq
    ⟨"u", [], [], [], 1⟩ 2 (by rfl) (by decide) (by decide) (by decide) (by decide)
  exact ⟨T.1, T.2.1⟩

/-! Lemmas about upload_file. -/

theorem upload_shape (fuel : Nat) (now : Int) (freshId : String) (db : DB)
    (uname : String) (req : UploadFileRequest) (st : Status) (db2 : DB)
    (hrun : upload_file fuel now freshId db uname req = some (st, db2))
    (hst : st ≠ .FORBIDDEN) :
    ∃ u pk, getUserWithKeyring db uname = some u ∧
      resolveParentKeyring db u req.parent_uid = some pk ∧
      ((∃ f, findFileByName db req.filename = some f ∧ st = .OK ∧
          db2 = { db with files :=
            updateFileData db.files f.id (i32ofNat req.file.length) req.file now }) ∨
       (findFileByName db req.filename = none ∧ st = .CREATED ∧
          db2 = { db with
                  files := db.files ++ [uploadNewFile freshId req now],
                  keys := db.keys ++ [⟨freshId, req.encrypted_key, pk⟩] })) := by
  cases hu : getUserWithKeyring db uname with
  | none =>
    simp only [upload_file, hu] at hrun
    cases hrun
  | some u =>
    refine ⟨u, ?_⟩
    cases hp : req.parent_uid with
    | none =>
      simp only [upload_file, hu, hp, resolveParentKeyring] at hrun
      refine ⟨u.keyring, rfl, rfl, ?_⟩
      cases hff : findFileByName db req.filename with
      | some f =>
        rw [hff] at hrun
        simp only [Option.some.injEq, Prod.mk.injEq] at hrun
        exact Or.inl ⟨f, rfl, hrun.1.symm, hrun.2.symm⟩
      | none =>
        rw [hff] at hrun
        simp only [Option.some.injEq, Prod.mk.injEq] at hrun
        exact Or.inr ⟨rfl, hrun.1.symm, hrun.2.symm⟩
    | some p =>
      simp only [upload_file, hu, hp, resolveParentKeyring] at hrun
      cases hacc : has_access db p fuel u.keyring with
      | none => rw [hacc] at hrun; cases hrun
      | some b =>
        cases b with
        | false =>
          rw [hacc] at hrun
          simp only [Option.some.injEq, Prod.mk.injEq] at hrun
          exact absurd hrun.1.symm hst
        | true =>
          rw [hacc] at hrun
          cases hpk : folderKeyring db p with
          | none => rw [hpk] at hrun; cases hrun
          | some pk =>
            rw [hpk] at hrun
            refine ⟨pk, rfl, hpk, ?_⟩
            cases hff : findFileByName db req.filename with
            | some f =>
              rw [hff] at hrun
              simp only [Option.some.injEq, Prod.mk.injEq] at hrun
              exact Or.inl ⟨f, rfl, hrun.1.symm, hrun.2.symm⟩
            | none =>
              rw [hff] at hrun
              simp only [Option.some.injEq, Prod.mk.injEq] at hrun
              exact Or.inr ⟨rfl, hrun.1.symm, hrun.2.symm⟩

/-- Claim C4 counterexample.  In c4db the resolved parent keyring of the
upload is the root keyring 1 of u, which holds no edge at all, yet the
upload takes the in-place branch (status OK, nothing inserted) because the
name query matches the edge of the unrelated keyring 2: the branch does not
fire exactly when the resolved parent keyring holds a same-name edge. -/
theorem upload_foreign_keyring_counterexample :
    keysOf c4db 1 = [] ∧
    resolveParentKeyring c4db ⟨"u", [], [], [], 1⟩ none = some 1 ∧
    upload_file 1 0 "fresh" c4db "u" c4req = some (.OK, c4dbU) := by decide

/-- Claim C4 amended: the in-place branch of upload fires exactly when some
edge of some keyring, not necessarily the resolved parent keyring, points at
a file with the requested encrypted name; it then rewrites that file content
in place, inserting nothing, and otherwise the handler inserts one fresh
file row and one edge in the resolved parent keyring. -/
theorem upload_inplace_characterization (fuel : Nat) (now : Int)
    (freshId : String) (db : DB) (uname : String) (req : UploadFileRequest)
    (st : Status) (db2 : DB)
    (hrun : upload_file fuel now freshId db uname req = some (st, db2))
    (hst : st ≠ .FORBIDDEN) :
    (st = .OK ↔ (findFileByName db req.filename).isSome) ∧
    (∀ f, findFileByName db req.filename = some f →
      st = .OK ∧ db2.keys = db.keys ∧
      db2.files = updateFileData db.files f.id (i32ofNat req.file.length) req.file now) ∧
    (findFileByName db req.filename = none →
      st = .CREATED ∧
      db2.files = db.files ++ [uploadNewFile freshId req now] ∧
      ∃ u pk, getUserWithKeyring db uname = some u ∧
        resolveParentKeyring db u req.parent_uid = some pk ∧
        db2.keys = db.keys ++ [⟨freshId, req.encrypted_key, pk⟩]) := by
  obtain ⟨u, pk, hu, hpk, hbr⟩ :=
    upload_shape fuel now freshId db uname req st db2 hrun hst
  rcases hbr with ⟨f, hff, hstOK, hdb2⟩ | ⟨hff, hstC, hdb2⟩
  · subst hstOK
    subst hdb2
    refine ⟨by simp [hff], ?_, ?_⟩
    · intro f2 hff2
      rw [hff] at hff2
      cases hff2
      exact ⟨rfl, rfl, rfl⟩
    · intro hnone
      rw [hff] at hnone
      cases hnone
  · subst hstC
    subst hdb2
    refine ⟨by simp [hff], ?_, ?_⟩
    · intro f2 hff2
      rw [hff] at hff2
      cases hff2
    · intro _
      exact ⟨rfl, rfl, u, pk, hu, hpk, rfl⟩

/-- Witness for the amended C4: at the concrete c4 upload the name matched,
the keys table is untouched and the file was rewritten in place. -/
theorem upload_inplace_characterization_witness :
    Status.OK = Status.OK ∧ c4dbU.keys = c4db.keys ∧
    c4dbU.files = updateFileData c4db.files "g" (i32ofNat 1) [5] 0 :=
  (upload_inplace_characterization 1 0 "fresh" c4db "u" c4req .OK c4dbU
    (by decide) (by decide)).2.1 c4file (by decide)

/-- Claim C3 is false of the code: has_access has no depth limit and no
visited set, so on the cyclic database c3db the recursion never returns,
whatever bound the fuel models; the Rust original overflows the stack
instead of returning false. -/
theorem has_access_cycle_diverges :
    ∀ fuel : Nat, has_access c3db "nofile" fuel 2 = none := by
  intro fuel
  induction fuel with
  | zero => rfl
  | succ n ih =>
    have hstep : has_access c3db "nofile" (n + 1) 2 =
        (match has_access c3db "nofile" n 2 with
         | some true => some true
         | some false => has_access_go (has_access c3db "nofile" n) c3db "nofile" []
         | none => none) := rfl
    rw [hstep, ih]

/-- Claim C5 is false of the code for create_folder (the same holds for the
create branch of upload and for unshare): its three inserts are three
separate autocommitted statements, so after the first statement the database
is in a state that is neither the initial nor the final one, with a keyring
row but no folder row and no edge; a failure between the statements leaves
this partial state behind. -/
theorem create_folder_not_transactional :
    create_folder 1 0 7 "d" c5db "u" ⟨none, "dn", [3]⟩ = some (.OK, c5final) ∧
    observableStates c5db (create_folder_stmts 7 c5folder c5edge) =
      [c5mid1, c5mid2, c5final] ∧
    c5mid1 ≠ c5db ∧ c5mid1 ≠ c5final ∧ c5mid2 ≠ c5db ∧ c5mid2 ≠ c5final := by
  decide

/-- Claim C6 is false of the code: in c6db every file row satisfies the
exactly-one-of invariant, u has access to the plain file f, and the unshare
of f carrying no new content succeeds; the resulting row f has data = none
and keyring_id = none, so the invariant no longer holds. -/
theorem unshare_breaks_file_invariant :
    (∀ f ∈ c6db.files, fileInvariant f = true) ∧
    unshare_file 2 0 c6db "u" c6req = some (.OK, c6db2) ∧
    findFile c6db2 "f" = some c6bad ∧
    fileInvariant c6bad = false := by decide

/-- Claim C7 counterexample: the session for token t has the negative
expiration timestamp -1, which is not in the future of now = 0, yet the
middleware lets the request through carrying that session, because the
Rust comparison first casts the i64 timestamp to u64 and -1 becomes
18446744073709551615. -/
theorem negative_expiration_counterexample :
    (⟨"t", "u", -1⟩ : Session).expiration_date ≤ 0 ∧
    auth_middleware c7negDB (some "Bearer t") 0 = (.ok ⟨"t", "u", -1⟩, c7negDB) :=
  ⟨by decide, rfl⟩

/-- Claim C7 amended: for a stored session whose expiration timestamp is
nonnegative and below 2 to the 64 (every timestamp the server itself
writes), and a clock below 2 to the 64, a request whose bearer token
resolves to that session is answered 401 with the session row deleted and
the handler never runs when the expiration is not in the future, and passes
authentication carrying the session when the expiration is in the future. -/
theorem auth_middleware_expiry (db : DB) (h : String) (tok : String)
    (s : Session) (now : Nat)
    (htok : bearerToken h = some tok)
    (hfind : db.sessions.find? (fun x => x.token == tok) = some s)
    (hlo : 0 ≤ s.expiration_date)
    (hhi : s.expiration_date < 2 ^ 64)
    (hnow : now < 2 ^ 64) :
    (s.expiration_date ≤ (now : Int) →
      auth_middleware db (some h) now =
        (.error (),
         { db with sessions := db.sessions.filter (fun x => !(x.token == s.token)) })) ∧
    ((now : Int) < s.expiration_date →
      auth_middleware db (some h) now = (.ok s, db)) := by
  have hcast : u64OfInt s.expiration_date = s.expiration_date.toNat := by
    unfold u64OfInt
    rw [Int.emod_eq_of_lt hlo hhi]
  have hnow2 : u64OfNat now = now := Nat.mod_eq_of_lt hnow
  constructor
  · intro hle
    simp only [auth_middleware, htok, hfind, hcast, hnow2]
    rw [if_pos (Int.toNat_le.mpr hle)]
  · intro hlt
    simp only [auth_middleware, htok, hfind, hcast, hnow2]
    rw [if_neg]
    omega

/-- Witness for the amended C7: token t expiring at millisecond 100 is
refused at now = 100 and its row is deleted. -/
theorem auth_middleware_expiry_witness :
    auth_middleware c7wDB (some "Bearer t") 100 =
      (.error (),
       { c7wDB with sessions := c7wDB.sessions.filter (fun x => !(x.token == "t")) }) :=
  (auth_middleware_expiry c7wDB "Bearer t" "t" ⟨"t", "u", 100⟩ 100 rfl rfl
    (by decide) (by decide) (by decide)).1 (by decide)

/-- Claim C8: login_start returns a credential response for every username
over every database: the only use of the user lookup is to select the
optional stored envelope handed to the protocol start (the library runs a
dummy record when it is none), so the outcome never branches on user
existence and there is no enumeration oracle in the response status. -/
theorem login_start_no_enumeration
    (opq : Option (List Nat) → List Nat → List Nat)
    (deser : List Nat → List Nat) (db : DB)
    (states : List (String × List Nat)) (uname : String) (credReq : List Nat) :
    ∃ resp, (login_start opq deser db states uname credReq).1 = .ok resp ∧
      resp = opq ((db.users.find? (fun u => u.username == uname)).map
        (fun u => deser u.password)) credReq :=
  ⟨_, rfl, rfl⟩

/-- Claim C9 counterexample: on the empty input, which is shorter than the
12-byte nonce prefix, chacha_decrypt panics (the out-of-bounds slice,
modelled as none) instead of returning a failure value, for any AEAD open
and a 32-byte key. -/
theorem chacha_decrypt_short_panics :
    chacha_decrypt rejectAead [] (List.replicate 32 0) = none := rfl

/-- Claim C9 amended: for a 32-byte key and any input of at least 12 bytes
chacha_decrypt is total: it splits the nonce and returns whatever the AEAD
open yields, plaintext or KeyMismatch-style failure; shorter inputs hit the
out-of-bounds slice. -/
theorem chacha_decrypt_total_characterization
    (aeadOpen : List Nat → List Nat → List Nat → Except Unit (List Nat))
    (data key : List Nat) (hkey : key.length = 32) (hlen : 12 ≤ data.length) :
    chacha_decrypt aeadOpen data key =
      some (aeadOpen key (data.take 12) (data.drop 12)) := by
  unfold chacha_decrypt
  rw [if_pos hkey, if_neg (by omega)]

/-- Witness for the amended C9 on a concrete 12-byte input. -/
theorem chacha_decrypt_total_characterization_witness :
    chacha_decrypt rejectAead (List.replicate 12 0) (List.replicate 32 1) =
      some (rejectAead (List.replicate 32 1) ((List.replicate 12 0).take 12)
        ((List.replicate 12 0).drop 12)) :=
  chacha_decrypt_total_characterization rejectAead (List.replicate 12 0)
    (List.replicate 32 1) (by decide) (by decide)

/-- Claim C10: whenever the authorization walk answers false for a file id
from the root keyring of the caller, download, delete, share and unshare all
answer 403 FORBIDDEN and return the database unchanged; the hypothesis is
satisfied both by existing-but-unreachable ids and by ids naming no row at
all, and the conclusion is the same in both cases, so the response does not
distinguish them. -/
theorem no_access_uniform_forbidden (fuel : Nat) (now : Int) (db : DB)
    (uname : String) (u : User) (fid : String) (skey : List Nat)
    (tuser : String) (puid : Option String) (nkey : List Nat) (nname : String)
    (ndata : Option (List Nat))
    (hu : getUserWithKeyring db uname = some u)
    (hacc : has_access db fid fuel u.keyring = some false) :
    download_file fuel db uname fid = some (.error .FORBIDDEN) ∧
    delete_file fuel db uname fid = some (.FORBIDDEN, db) ∧
    share_file fuel db uname ⟨fid, skey, tuser⟩ = some (.FORBIDDEN, db) ∧
    unshare_file fuel now db uname ⟨fid, puid, nkey, nname, ndata⟩ =
      some (.FORBIDDEN, db) := by
  refine ⟨?_, ?_, ?_, ?_⟩ <;>
    simp [download_file, delete_file, share_file, unshare_file, hu, hacc]

/-- Witness for C10: the id ghost names no file row and no edge in c10db,
the walk answers false, and all four handlers answer FORBIDDEN leaving the
database unchanged. -/
theorem no_access_uniform_forbidden_witness :
    download_file 1 c10db "u" "ghost" = some (.error .FORBIDDEN) ∧
    delete_file 1 c10db "u" "ghost" = some (.FORBIDDEN, c10db) ∧
    share_file 1 c10db "u" ⟨"ghost", [1], "v"⟩ = some (.FORBIDDEN, c10db) ∧
    unshare_file 1 0 c10db "u" ⟨"ghost", none, [1], "n", none⟩ =
      some (.FORBIDDEN, c10db) :=
  no_access_uniform_forbidden 1 0 c10db "u" ⟨"u", [], [], [], 1⟩ "ghost" [1]
    "v" none [1] "n" none (by decide) (by decide)

end CAA
